import Mathlib

/-!
Shallow embedding of `xfs_inode_scanner.py` (XFS-Inode-Parser).

Bytes are modelled as `Nat` (values 0..255); a file image is a `List Nat`.
Python slicing `data[a:b]` (with `0 ≤ a ≤ b`) is `(data.take b).drop a`;
`f.seek(o); f.read(n)` on an image is `(img.drop o).take n`. `struct.unpack(">I", bs)`
raises unless `bs` has exactly 4 bytes, so it is modelled as an `Option`.
-/

namespace XFS

set_option maxRecDepth 8000

/-- Python `data[a:b]` for `0 ≤ a ≤ b` (clamped at the ends, never raising). -/
def pySlice (data : List Nat) (a b : Nat) : List Nat :=
  (data.take b).drop a

/-- `XFS_SUPERBLOCK_MAGIC = b'XFSB'`. -/
def XFS_SUPERBLOCK_MAGIC : List Nat := [0x58, 0x46, 0x53, 0x42]

/-- `INODE_MAGIC = b'IN'`. -/
def INODE_MAGIC : List Nat := [0x49, 0x4E]

/-- `INODE_SIZE = 512`. -/
def INODE_SIZE : Nat := 512

/-- The `FILE_TYPES` dict, as an association list in source order. -/
def FILE_TYPES : List (Nat × String) :=
  [(0x1, "FIFO"), (0x2, "Character Device"), (0x4, "Directory"),
   (0x6, "Block Device"), (0x8, "Regular File"), (0xA, "Symlink"),
   (0xC, "Socket")]

/-- Python `code in FILE_TYPES` (dict key membership). -/
def fileTypesContains (code : Nat) : Bool :=
  (FILE_TYPES.map Prod.fst).contains code

/-- `detect_xfs_magic`: seek to 0, read 4 bytes, compare with `b'XFSB'`.
A short read yields fewer than 4 bytes, which simply compares unequal. -/
def detect_xfs_magic (img : List Nat) : Bool :=
  img.take 4 == XFS_SUPERBLOCK_MAGIC

/-- `parse_file_type`: `(mode_byte >> 4) & 0xF`. -/
def parse_file_type (mode_byte : Nat) : Nat :=
  (mode_byte / 16) % 16

/-- `struct.unpack(">I", bs)[0]`: big-endian 32-bit decode, erroring (`none`)
unless exactly 4 bytes are supplied. -/
def unpackBE32 (bs : List Nat) : Option Nat :=
  match bs with
  | [a, b, c, d] => some (((a * 256 + b) * 256 + c) * 256 + d)
  | _ => none

/-- `parse_times`: the three big-endian 32-bit fields at offsets 32, 40, 48.
The `try` block aborts to `(0, 0, 0)` as soon as any unpack raises, so the
result is the triple when all three decode and `(0, 0, 0)` otherwise. -/
def parse_times (block : List Nat) : Nat × Nat × Nat :=
  match unpackBE32 (pySlice block 32 36), unpackBE32 (pySlice block 40 44),
        unpackBE32 (pySlice block 48 52) with
  | some atime, some mtime, some ctime => (atime, mtime, ctime)
  | _, _, _ => (0, 0, 0)

/-- The inode dict built inside `scan_and_classify_inodes`. -/
structure InodeRecord where
  inode : Nat
  type_code : Nat
  atime : Nat
  mtime : Nat
  ctime : Nat
deriving DecidableEq, Repr, Inhabited

/-- The record appended for a matching 512-byte window `block` read at `offset`. -/
def mkInodeRecord (block : List Nat) (offset : Nat) : InodeRecord :=
  { inode := offset / INODE_SIZE
    type_code := parse_file_type (block.getD 2 0)
    atime := (parse_times block).1
    mtime := (parse_times block).2.1
    ctime := (parse_times block).2.2 }

/-- The loop of `scan_and_classify_inodes`, starting from a given `offset`:
while `offset < filesize`, read up to 512 bytes, stop if fewer than 4 were
read, append a record when the first two bytes are `b'IN'`, advance by 512. -/
def scanFrom (img : List Nat) (offset : Nat) : List InodeRecord :=
  if h : offset < img.length then
    if ((img.drop offset).take INODE_SIZE).length < 4 then []
    else if ((img.drop offset).take INODE_SIZE).take 2 = INODE_MAGIC then
      mkInodeRecord ((img.drop offset).take INODE_SIZE) offset ::
        scanFrom img (offset + INODE_SIZE)
    else
      scanFrom img (offset + INODE_SIZE)
  else []
termination_by img.length - offset
decreasing_by all_goals (simp only [INODE_SIZE]; omega)

/-- `scan_and_classify_inodes(f, filesize)` with `filesize = len(img)`. -/
def scan_and_classify_inodes (img : List Nat) : List InodeRecord :=
  scanFrom img 0

/-- Instrumented copy of `scanFrom` that records, next to each emitted record,
the byte offset at which its window was read. -/
def scanFromOff (img : List Nat) (offset : Nat) : List (Nat × InodeRecord) :=
  if h : offset < img.length then
    if ((img.drop offset).take INODE_SIZE).length < 4 then []
    else if ((img.drop offset).take INODE_SIZE).take 2 = INODE_MAGIC then
      (offset, mkInodeRecord ((img.drop offset).take INODE_SIZE) offset) ::
        scanFromOff img (offset + INODE_SIZE)
    else
      scanFromOff img (offset + INODE_SIZE)
  else []
termination_by img.length - offset
decreasing_by all_goals (simp only [INODE_SIZE]; omega)

/-- `has_times = all([atime, mtime, ctime])`: Python truthiness of an int is
being nonzero. -/
def has_times (r : InodeRecord) : Bool :=
  r.atime != 0 && r.mtime != 0 && r.ctime != 0

/-- Uppercase hexadecimal digits, for Python's `f"{n:X}"`. -/
def hexDigitChar (n : Nat) : Char :=
  if n < 10 then Char.ofNat (48 + n) else Char.ofNat (55 + n)

/-- Python `f"{n:X}"` as a list of characters. -/
def pyHexUpperAux (n : Nat) : List Char :=
  if n < 16 then [hexDigitChar n]
  else pyHexUpperAux (n / 16) ++ [hexDigitChar (n % 16)]
termination_by n
decreasing_by omega

/-- Python `f"{n:X}"`. -/
def pyHexUpper (n : Nat) : String :=
  String.mk (pyHexUpperAux n)

/-- The file-type label computed in `classify_and_print` for the record
`inode = inodes[i]`: root-inode convention first, then the neighbour
heuristic for `type_code == 0x0`, then the `FILE_TYPES` table lookup. -/
def classify_label (inodes : List InodeRecord) (i : Nat) (inode : InodeRecord) : String :=
  if inode.inode == 128 then "Root Directory"
  else if inode.type_code == 0 then
    let prev_known := decide (0 < i) && fileTypesContains (inodes.getD (i - 1) default).type_code
    let next_known := decide (i + 1 < inodes.length) && fileTypesContains (inodes.getD (i + 1) default).type_code
    if (prev_known || next_known) && has_times inode then "Probably Deleted File"
    else "Unknown (0x0)"
  else
    (FILE_TYPES.lookup inode.type_code).getD ("Unknown (0x" ++ pyHexUpper inode.type_code ++ ")")

/-- `int.from_bytes(bs, byteorder='big')`. -/
def beBytesToNat (bs : List Nat) : Nat :=
  bs.foldl (fun acc b => acc * 256 + b) 0

/-- The dict built by `parse_shortform_inode`. -/
structure ShortformInodeRecord where
  inode_number : Nat
  offset : Nat
  entry_count : Nat
deriving DecidableEq, Repr, Inhabited

/-- `parse_shortform_inode(data, offset)`: take a 256-byte window at `offset`;
reject a short window, a window not starting with `b'IN'`, or a zero entry
count at window offset 176; otherwise build the record with the big-endian
64-bit inode number at window offsets 152..159. -/
def parse_shortform_inode (data : List Nat) (offset : Nat) : Option ShortformInodeRecord :=
  let inode := pySlice data offset (offset + 256)
  if inode.length < 256 then none
  else if inode.take 2 ≠ INODE_MAGIC then none
  else
    let num_entries := inode.getD 176 0
    if num_entries = 0 then none
    else some { inode_number := beBytesToNat (pySlice inode 152 160)
                offset := offset
                entry_count := num_entries }

/-- The loop of `scan_shortform_inodes`, from a given cursor: while
`offset < len(data) - 256` (Python comparison; with `Nat` subtraction a
negative right-hand side becomes 0, false for every cursor, as in Python),
a matching 2-byte signature advances the cursor by 256 whether or not the
candidate window validates, while a mismatch advances it by 16. Records
reported by the loop are collected in order. -/
def scan_shortform_from (data : List Nat) (offset : Nat) : List ShortformInodeRecord :=
  if h : offset < data.length - 256 then
    if pySlice data offset (offset + 2) = INODE_MAGIC then
      match parse_shortform_inode data offset with
      | some r => r :: scan_shortform_from data (offset + 256)
      | none => scan_shortform_from data (offset + 256)
    else
      scan_shortform_from data (offset + 16)
  else []
termination_by data.length - offset
decreasing_by all_goals omega

/-- `scan_shortform_inodes(data)`: the loop started at cursor 0. -/
def scan_shortform_inodes (data : List Nat) : List ShortformInodeRecord :=
  scan_shortform_from data 0

/-- The successive cursor positions of the `scan_shortform_inodes` loop: every
position at which the loop body runs, followed by the terminal position at
which the loop condition first fails. -/
def scan_shortform_trace (data : List Nat) (offset : Nat) : List Nat :=
  if h : offset < data.length - 256 then
    if pySlice data offset (offset + 2) = INODE_MAGIC then
      offset :: scan_shortform_trace data (offset + 256)
    else
      offset :: scan_shortform_trace data (offset + 16)
  else [offset]
termination_by data.length - offset
decreasing_by all_goals omega

/-! ### Name resolution (`parse_xfs_ncheck`)

The external `xfs_ncheck` invocation is modelled by its outcome: either a
failure (missing utility, non-zero exit, stdout that does not decode) or the
decoded stdout text. Text is `List Char`; the Python string operations used
by the source are embedded below. -/

/-- Python `str.isspace` on the whitespace characters recognised by `strip`
and `split`. -/
def pyIsSpace (c : Char) : Bool :=
  c = ' ' || c = '\t' || c = '\n' || c = '\x0d' || c = '\x0b' || c = '\x0c'

/-- Python `s.strip()`. -/
def pyStrip (s : List Char) : List Char :=
  ((s.dropWhile pyIsSpace).reverse.dropWhile pyIsSpace).reverse

/-- Python `s.split(None, 1)`: drop leading whitespace; if nothing remains the
result is empty, otherwise the first whitespace-free token, and then the rest
with the separating whitespace run removed, when nonempty. -/
def pySplitNone1 (s : List Char) : List (List Char) :=
  let s1 := s.dropWhile pyIsSpace
  if s1 = [] then []
  else
    let tok := s1.takeWhile (fun c => !pyIsSpace c)
    let rest := (s1.dropWhile (fun c => !pyIsSpace c)).dropWhile pyIsSpace
    if rest = [] then [tok] else [tok, rest]

/-- Python `int(s)` on a whitespace-free token: an optional sign followed by
at least one decimal digit; anything else raises `ValueError` (`none`). -/
def pyInt (s : List Char) : Option Int :=
  let core : List Char → Option Nat := fun ds =>
    if ds ≠ [] ∧ ds.all (fun c => c.isDigit) then
      some (ds.foldl (fun acc c => acc * 10 + (c.toNat - 48)) 0)
    else none
  match s with
  | '-' :: rest => (core rest).map (fun n => -(n : Int))
  | '+' :: rest => (core rest).map (fun n => (n : Int))
  | _ => (core s).map (fun n => (n : Int))

/-- Python dict assignment `m[k] = v`: replace in place or append. -/
def dictInsert (m : List (Int × List Char)) (k : Int) (v : List Char) :
    List (Int × List Char) :=
  match m with
  | [] => [(k, v)]
  | (k', v') :: t => if k' = k then (k, v) :: t else (k', v') :: dictInsert t k v

/-- The line loop of `parse_xfs_ncheck`: lines are processed in order; a
two-part line whose first part fails `int` raises out of the loop, keeping
the entries accumulated so far and flagging the warning (`true`). -/
def parse_ncheck_lines : List (List Char) → List (Int × List Char) →
    List (Int × List Char) × Bool
  | [], acc => (acc, false)
  | line :: rest, acc =>
    match pySplitNone1 (pyStrip line) with
    | [p0, p1] =>
      match pyInt p0 with
      | some n => parse_ncheck_lines rest (dictInsert acc n (pyStrip p1))
      | none => (acc, true)
    | _ => parse_ncheck_lines rest acc

/-- `parse_xfs_ncheck`: an invocation failure leaves the freshly-created map
empty and prints the warning; otherwise the stripped stdout is split on
newlines and fed to the line loop. The boolean records whether the
`except` branch printed its warning; in either case the function returns
the map normally (the scan is never aborted). -/
def parse_xfs_ncheck (invocation : Except (List Char) (List Char)) :
    List (Int × List Char) × Bool :=
  match invocation with
  | .error _ => ([], true)
  | .ok output => parse_ncheck_lines ((pyStrip output).splitOn '\n') []

/-! ### `main` -/

/-- What a run of `main` observably does: the lines it prints and the process
exit status once the script returns from `main` (the script calls `sys.exit`
only for CLI usage errors, so a `main` that returns, including via its
`except` branch, exits with status 0). -/
structure MainOutput where
  lines : List String
  exitCode : Nat
deriving DecidableEq, Repr

/-- Python `f"{s:<w}"`: left-justify to width `w`. -/
def pyPadRight (s : String) (w : Nat) : String :=
  s ++ String.mk (List.replicate (w - s.length) ' ')

/-- The printing loop of `classify_and_print`: one report line per surviving
record, then its three time lines when `has_times` holds, then the final
total. `fmt` renders an epoch second (`format_time`, an excluded external
formatting concern). -/
def classify_and_print (inodes : List InodeRecord) (name_map : List (Int × List Char))
    (only_allocated only_deleted : Bool) (fmt : Nat → String) : List String :=
  let step : (List String × Nat) → (Nat × InodeRecord) → (List String × Nat) :=
    fun acc p =>
      let i := p.1
      let inode := p.2
      let file_type := classify_label inodes i inode
      let ht := has_times inode
      if only_allocated && (inode.type_code == 0 || !ht) then acc
      else if only_deleted && (file_type != "Probably Deleted File") then acc
      else
        let name := if inode.inode == 128 then "."
          else match name_map.lookup (Int.ofNat inode.inode) with
            | some cs => String.mk cs
            | none => "(unknown)"
        let l1 := "Inode #" ++ pyPadRight (toString inode.inode) 7 ++
          " | File Type: " ++ pyPadRight file_type 22 ++ " | Name: " ++ name
        let timeLines := if ht then
            ["  atime: " ++ fmt inode.atime, "  mtime: " ++ fmt inode.mtime,
             "  ctime: " ++ fmt inode.ctime]
          else []
        (acc.1 ++ l1 :: timeLines, acc.2 + 1)
  let r := inodes.enum.foldl step ([], 0)
  r.1 ++ ["\nTotal inodes found: " ++ toString r.2]

/-- The lines printed by `scan_shortform_inodes`: a header, three lines per
reported record, and a no-results line when nothing was found. -/
def shortform_report (data : List Nat) : List String :=
  let recs := scan_shortform_inodes data
  let recLines := recs.foldr
    (fun r acc =>
      ("📁 Inode #" ++ toString r.inode_number) ::
      ("  Physical Offset To The Inode: " ++ toString r.offset) ::
      ("  Total short-form entries: " ++ toString r.entry_count ++ "\n") :: acc) []
  ("🔎 Scanning for short-form directory inodes...\n" :: recLines) ++
    (if recs.length = 0 then ["❌ No short-form directory inodes found."] else [])

/-- `main`, observably: its input is the outcome of opening and buffering the
image (`openResult`; a fatal I/O error carries the rendered exception text)
and the outcome of the `xfs_ncheck` invocation. `fmt` stands for the excluded
`format_time` collaborator and `wmsg` for the rendered text of the exception
caught inside `parse_xfs_ncheck`. The `except` branch prints the single
`Error:` diagnostic; `main` then returns, and the script exits with status 0
on every path through `main` (only the CLI usage check calls `sys.exit`). -/
def mainModel (image_path : String) (openResult : Except String (List Nat))
    (ncheckResult : Except (List Char) (List Char))
    (only_allocated only_deleted shortform : Bool)
    (fmt : Nat → String) (wmsg : String) : MainOutput :=
  match openResult with
  | .error e => { lines := ["Error: " ++ e], exitCode := 0 }
  | .ok img =>
    let checking := "Checking if '" ++ image_path ++ "' is an XFS filesystem..."
    if !detect_xfs_magic img then
      { lines := [checking, "❌ Not an XFS filesystem (magic 'XFSB' not found)."]
        exitCode := 0 }
    else
      let detected := "✅ XFS filesystem detected.\n"
      if shortform then
        { lines := checking :: detected :: shortform_report img, exitCode := 0 }
      else
        let inodes := scan_and_classify_inodes img
        if inodes.isEmpty then
          { lines := [checking, detected, "No inodes found."], exitCode := 0 }
        else
          let nm := parse_xfs_ncheck ncheckResult
          let warnLines :=
            if nm.2 then ["Warning: Could not run xfs_ncheck - " ++ wmsg] else []
          { lines := (checking :: detected :: warnLines) ++
              classify_and_print inodes nm.1 only_allocated only_deleted fmt
            exitCode := 0 }

/-- The keys of `FILE_TYPES`: the known type codes. -/
def knownTypeCodes : List Nat := [0x1, 0x2, 0x4, 0x6, 0x8, 0xA, 0xC]

/-- The last offset that is a multiple of 512 and (for an image whose length
is not a multiple of 512) still inside the image. -/
def lastWindowOffset (img : List Nat) : Nat :=
  512 * (img.length / 512)

/-- The (possibly partial) window read at `lastWindowOffset`. -/
def lastWindow (img : List Nat) : List Nat :=
  (img.drop (lastWindowOffset img)).take 512

/-- An `xfs_ncheck` output line on which the body of the parsing loop raises:
it splits into exactly two parts and `int` fails on the first. -/
def lineIntFails (line : List Char) : Prop :=
  ∃ p0 p1, pySplitNone1 (pyStrip line) = [p0, p1] ∧ pyInt p0 = none

/-- A 300-byte buffer whose only signature match is a candidate short-form
window at offset 0 with entry count 0 (validation fails there). -/
def sfCand : List Nat := 0x49 :: 0x4E :: List.replicate 298 0

/-- A 256-byte buffer that is exactly one valid short-form window (signature
at 0, entry count 1 at offset 176). -/
def sfExact : List Nat :=
  0x49 :: 0x4E :: (List.replicate 174 0 ++ (1 :: List.replicate 79 0))

/-- A 257-byte buffer holding a valid short-form window at offset 0. -/
def sfOk : List Nat :=
  0x49 :: 0x4E :: (List.replicate 174 0 ++ (1 :: List.replicate 80 0))

/-- A 516-byte image: one non-matching full window, then a 4-byte partial
window `b'IN' 0x85 0x00` at offset 512. -/
def imgC10 : List Nat := List.replicate 512 0 ++ [0x49, 0x4E, 0x85, 0]

/-- `xfs_ncheck` stdout whose first line parses and whose second line makes
`int` raise. -/
def badNcheckOutput : List Char :=
  ['1', ' ', '/', 'a', '\n', 'x', 'y', 'z', ' ', '/', 'b']

/-! ## Theorems -/

/-- C4: `detect_xfs_magic` returns `true` iff the first four bytes of the
image are the literal `XFSB`; in particular an image shorter than four bytes
yields `false`. The function is total, so no input makes it raise. -/
theorem detect_magic_iff_xfsb (img : List Nat) :
    (detect_xfs_magic img = true ↔ img.take 4 = XFS_SUPERBLOCK_MAGIC) ∧
    (img.length < 4 → detect_xfs_magic img = false) := by
  constructor
  · simp [detect_xfs_magic]
  · intro hshort
    simp only [detect_xfs_magic, beq_eq_false_iff_ne, ne_eq]
    intro heq
    have hlen := congrArg List.length heq
    simp [List.length_take, XFS_SUPERBLOCK_MAGIC] at hlen
    omega

/-- Witness for C4: a 1-byte image is rejected. -/
theorem detect_magic_iff_xfsb_witness : detect_xfs_magic [0x58] = false :=
  (detect_magic_iff_xfsb [0x58]).2 (by decide)

/-- C6: a scanned record whose `inode` field is 128 is labelled
`Root Directory` by `classify_and_print`, whatever its type code and
timestamps. -/
theorem classify_root_unconditional (inodes : List InodeRecord) (i : Nat)
    (r : InodeRecord) (hmem : inodes.get? i = some r) (h128 : r.inode = 128) :
    classify_label inodes i r = "Root Directory" := by
  simp [classify_label, h128]

/-- Witness for C6: inode 128 with an unknown type code and zero timestamps
is still the root directory. -/
theorem classify_root_unconditional_witness :
    classify_label [⟨128, 0, 0, 0, 0⟩] 0 ⟨128, 0, 0, 0, 0⟩ = "Root Directory" :=
  classify_root_unconditional [⟨128, 0, 0, 0, 0⟩] 0 ⟨128, 0, 0, 0, 0⟩ (by decide) rfl

/-- Helper: a byte list that does not have exactly four elements fails
`struct.unpack(">I", ...)`. -/
lemma unpackBE32_eq_none (bs : List Nat) (h : bs.length ≠ 4) :
    unpackBE32 bs = none := by
  rcases bs with _ | ⟨a, _ | ⟨b, _ | ⟨c, _ | ⟨d, _ | t⟩⟩⟩⟩ <;> simp_all [unpackBE32]

/-- Helper: if any of the three timestamp unpacks fails, `parse_times`
returns `(0, 0, 0)`. -/
lemma parse_times_zero_of_any_none (block : List Nat)
    (h : unpackBE32 (pySlice block 32 36) = none ∨
         unpackBE32 (pySlice block 40 44) = none ∨
         unpackBE32 (pySlice block 48 52) = none) :
    parse_times block = (0, 0, 0) := by
  cases h1 : unpackBE32 (pySlice block 32 36) <;>
    cases h2 : unpackBE32 (pySlice block 40 44) <;>
      cases h3 : unpackBE32 (pySlice block 48 52) <;>
        simp_all [parse_times]

/-- Helper: a block shorter than 52 bytes makes some timestamp field run out
of range, so all three timestamps decode to 0. -/
lemma parse_times_zero_of_short (block : List Nat) (h : block.length < 52) :
    parse_times block = (0, 0, 0) := by
  refine parse_times_zero_of_any_none block (Or.inr (Or.inr ?_))
  refine unpackBE32_eq_none _ ?_
  simp [pySlice, List.length_take, List.length_drop]
  omega

/-- C7: if extraction of any one of the three timestamp fields (window
offsets 32, 40, 48) is out of range for the available bytes, all three
timestamps of the record are 0 — including any that could have been
extracted; `parse_times` is total, so the scan continues. -/
theorem parse_times_all_zero_on_failure (block : List Nat)
    (h : unpackBE32 (pySlice block 32 36) = none ∨
         unpackBE32 (pySlice block 40 44) = none ∨
         unpackBE32 (pySlice block 48 52) = none) :
    parse_times block = (0, 0, 0) :=
  parse_times_zero_of_any_none block h

/-- Witness for C7: a 40-byte block whose atime field decodes fine still gets
all three timestamps zeroed because the mtime field is out of range. -/
theorem parse_times_all_zero_on_failure_witness :
    unpackBE32 (pySlice (List.replicate 40 7) 32 36) = some 117901063 ∧
    parse_times (List.replicate 40 7) = (0, 0, 0) :=
  ⟨by decide, parse_times_all_zero_on_failure (List.replicate 40 7)
    (Or.inr (Or.inl (by decide)))⟩

/-- C8 counterexample: on a fatal I/O error (the image cannot be opened) the
run prints the single diagnostic and the process exits with status 0 — not
with a non-zero status as claimed. -/
theorem main_io_error_exits_zero :
    mainModel "disk.img" (Except.error "No such file or directory")
        (Except.error []) false false false (fun _ => "") "" =
      { lines := ["Error: No such file or directory"], exitCode := 0 } := rfl

/-- C8 amended: when the image cannot be opened, the run aborts with a single
`Error:` diagnostic, no partial report is printed, and the process exits with
status 0 (success), because `main` merely returns from its `except` branch. -/
theorem main_io_error_behaviour (path e : String)
    (nres : Except (List Char) (List Char)) (oa od sf : Bool)
    (fmt : Nat → String) (wmsg : String) :
    mainModel path (Except.error e) nres oa od sf fmt wmsg =
      { lines := ["Error: " ++ e], exitCode := 0 } := rfl

/-- Helper: `in FILE_TYPES` checks exactly the known type codes. -/
lemma fileTypesContains_iff (c : Nat) :
    fileTypesContains c = true ↔ c ∈ knownTypeCodes := by
  simp [fileTypesContains, FILE_TYPES, knownTypeCodes]

lemma get?_eq_some_getD (l : List InodeRecord) (j : Nat) (h : j < l.length) :
    l.get? j = some (l.getD j default) := by
  simp [List.get?_eq_getElem?, List.getD_eq_getElem?_getD, List.getElem?_eq_getElem h]

/-- C1: for a scanned record at index `i` whose inode number is not 128 and
whose type code is 0x0, the label is `Probably Deleted File` iff all three of
its timestamps are nonzero and at least one of its scan-order neighbours
(index `i - 1` or `i + 1`, when it exists) has a type code in the known type
table; in every other case the label is `Unknown (0x0)`. -/
theorem classify_zero_neighbor_heuristic (inodes : List InodeRecord) (i : Nat)
    (r : InodeRecord) (hr : inodes.get? i = some r) (h128 : r.inode ≠ 128)
    (h0 : r.type_code = 0) :
    (classify_label inodes i r = "Probably Deleted File" ↔
      ((r.atime ≠ 0 ∧ r.mtime ≠ 0 ∧ r.ctime ≠ 0) ∧
       ((∃ p, 1 ≤ i ∧ inodes.get? (i - 1) = some p ∧ p.type_code ∈ knownTypeCodes) ∨
        (∃ q, inodes.get? (i + 1) = some q ∧ q.type_code ∈ knownTypeCodes)))) ∧
    (classify_label inodes i r ≠ "Probably Deleted File" →
      classify_label inodes i r = "Unknown (0x0)") := by
  have hi : i < inodes.length := by
    rcases List.get?_eq_some.mp hr with ⟨h, -⟩
    exact h
  have hlabel : classify_label inodes i r =
      (if ((decide (0 < i) && fileTypesContains (inodes.getD (i - 1) default).type_code) ||
           (decide (i + 1 < inodes.length) && fileTypesContains (inodes.getD (i + 1) default).type_code)) &&
          has_times r
       then "Probably Deleted File" else "Unknown (0x0)") := by
    simp [classify_label, h128, h0]
  have hiff : (((decide (0 < i) && fileTypesContains (inodes.getD (i - 1) default).type_code) ||
           (decide (i + 1 < inodes.length) && fileTypesContains (inodes.getD (i + 1) default).type_code)) &&
          has_times r) = true ↔
      ((r.atime ≠ 0 ∧ r.mtime ≠ 0 ∧ r.ctime ≠ 0) ∧
       ((∃ p, 1 ≤ i ∧ inodes.get? (i - 1) = some p ∧ p.type_code ∈ knownTypeCodes) ∨
        (∃ q, inodes.get? (i + 1) = some q ∧ q.type_code ∈ knownTypeCodes))) := by
    simp only [Bool.and_eq_true, Bool.or_eq_true, decide_eq_true_eq,
      fileTypesContains_iff, has_times, bne_iff_ne, ne_eq]
    constructor
    · rintro ⟨hor, ⟨ha, hm⟩, hc⟩
      refine ⟨⟨ha, hm, hc⟩, ?_⟩
      rcases hor with ⟨hpos, hmem⟩ | ⟨hlt, hmem⟩
      · exact Or.inl ⟨inodes.getD (i - 1) default, hpos,
          get?_eq_some_getD inodes (i - 1) (by omega), hmem⟩
      · exact Or.inr ⟨inodes.getD (i + 1) default,
          get?_eq_some_getD inodes (i + 1) hlt, hmem⟩
    · rintro ⟨⟨ha, hm, hc⟩, hor⟩
      refine ⟨?_, ⟨ha, hm⟩, hc⟩
      rcases hor with ⟨p, hpos, hp, hmem⟩ | ⟨q, hq, hmem⟩
      · left
        refine ⟨hpos, ?_⟩
        rw [get?_eq_some_getD inodes (i - 1) (by omega)] at hp
        have := Option.some.inj hp
        rwa [this]
      · have hlt : i + 1 < inodes.length := by
          rcases List.get?_eq_some.mp hq with ⟨h, -⟩
          exact h
        right
        refine ⟨hlt, ?_⟩
        rw [get?_eq_some_getD inodes (i + 1) hlt] at hq
        have := Option.some.inj hq
        rwa [this]
  constructor
  · rw [hlabel]
    by_cases hc : (((decide (0 < i) && fileTypesContains (inodes.getD (i - 1) default).type_code) ||
           (decide (i + 1 < inodes.length) && fileTypesContains (inodes.getD (i + 1) default).type_code)) &&
          has_times r) = true
    · rw [if_pos hc]
      exact iff_of_true rfl (hiff.mp hc)
    · rw [if_neg hc]
      exact iff_of_false (by decide) (fun hrhs => hc (hiff.mpr hrhs))
  · rw [hlabel]
    by_cases hc : (((decide (0 < i) && fileTypesContains (inodes.getD (i - 1) default).type_code) ||
           (decide (i + 1 < inodes.length) && fileTypesContains (inodes.getD (i + 1) default).type_code)) &&
          has_times r) = true <;> simp [hc]

/-- Witness for C1: a type-0 record with nonzero timestamps next to a
directory record is labelled probably deleted. -/
theorem classify_zero_neighbor_heuristic_witness :
    classify_label [⟨5, 4, 1, 1, 1⟩, ⟨6, 0, 1, 1, 1⟩] 1 ⟨6, 0, 1, 1, 1⟩ =
      "Probably Deleted File" :=
  (classify_zero_neighbor_heuristic [⟨5, 4, 1, 1, 1⟩, ⟨6, 0, 1, 1, 1⟩] 1
      ⟨6, 0, 1, 1, 1⟩ (by decide) (by decide) rfl).1.mpr
    ⟨⟨by decide, by decide, by decide⟩,
     Or.inl ⟨⟨5, 4, 1, 1, 1⟩, by decide, by decide, by decide⟩⟩

/-- Helper: the first two bytes of a 256-byte candidate window are the two
bytes at the cursor. -/
lemma pySlice_take_two (data : List Nat) (o : Nat) :
    (pySlice data o (o + 256)).take 2 = pySlice data o (o + 2) := by
  simp [pySlice, List.drop_take, List.take_take, Nat.add_sub_cancel_left]

/-- Helper: a successfully parsed short-form window carries its own offset and
implies the 2-byte signature matched at that offset. -/
lemma parse_shortform_some (data : List Nat) (o : Nat) (r : ShortformInodeRecord)
    (h : parse_shortform_inode data o = some r) :
    r.offset = o ∧ pySlice data o (o + 2) = INODE_MAGIC := by
  rw [parse_shortform_inode] at h
  by_cases h1 : (pySlice data o (o + 256)).length < 256
  · simp [h1] at h
  by_cases h2 : (pySlice data o (o + 256)).take 2 ≠ INODE_MAGIC
  · simp [h1, h2] at h
  by_cases h3 : (pySlice data o (o + 256)).getD 176 0 = 0
  · rw [if_neg h1, if_neg h2, if_pos h3] at h
    exact absurd h (by simp)
  · rw [if_neg h1, if_neg h2, if_neg h3] at h
    have hr := (Option.some.inj h).symm
    constructor
    · rw [hr]
    · rw [← pySlice_take_two]
      exact not_not.mp h2

lemma scan_shortform_from_mem (data : List Nat) :
    ∀ o, ∀ s ∈ scan_shortform_from data o,
      o ≤ s.offset ∧ s.offset < data.length - 256 ∧
      parse_shortform_inode data s.offset = some s := by
  refine scan_shortform_from.induct data
    (fun o => ∀ s ∈ scan_shortform_from data o,
      o ≤ s.offset ∧ s.offset < data.length - 256 ∧
      parse_shortform_inode data s.offset = some s) ?_ ?_ ?_ ?_
  · intro x hx hsig r hparse IH s hs
    rw [scan_shortform_from] at hs
    simp only [dif_pos hx, if_pos hsig, hparse] at hs
    rcases List.mem_cons.mp hs with rfl | hs'
    · have hro := (parse_shortform_some data x s hparse).1
      refine ⟨le_of_eq hro.symm, ?_, ?_⟩
      · rw [hro]; exact hx
      · rw [hro]; exact hparse
    · have h := IH s hs'
      exact ⟨by omega, h.2.1, h.2.2⟩
  · intro x hx hsig hparse IH s hs
    rw [scan_shortform_from] at hs
    simp only [dif_pos hx, if_pos hsig, hparse] at hs
    have h := IH s hs
    exact ⟨by omega, h.2.1, h.2.2⟩
  · intro x hx hsig IH s hs
    rw [scan_shortform_from] at hs
    simp only [dif_pos hx, if_neg hsig] at hs
    have h := IH s hs
    exact ⟨by omega, h.2.1, h.2.2⟩
  · intro x hnx s hs
    rw [scan_shortform_from] at hs
    simp [dif_neg hnx] at hs

lemma scan_shortform_from_pairwise (data : List Nat) :
    ∀ o, (scan_shortform_from data o).Pairwise (fun a b => a.offset < b.offset) := by
  refine scan_shortform_from.induct data
    (fun o => (scan_shortform_from data o).Pairwise (fun a b => a.offset < b.offset))
    ?_ ?_ ?_ ?_
  · intro x hx hsig r hparse IH
    rw [scan_shortform_from]
    simp only [dif_pos hx, if_pos hsig, hparse]
    rw [List.pairwise_cons]
    refine ⟨?_, IH⟩
    intro b hb
    have hro := (parse_shortform_some data x r hparse).1
    have hb' := (scan_shortform_from_mem data (x + 256) b hb).1
    omega
  · intro x hx hsig hparse IH
    rw [scan_shortform_from]
    simp only [dif_pos hx, if_pos hsig, hparse]
    exact IH
  · intro x hx hsig IH
    rw [scan_shortform_from]
    simp only [dif_pos hx, if_neg hsig]
    exact IH
  · intro x hnx
    rw [scan_shortform_from]
    simp [dif_neg hnx]

lemma scan_shortform_from_complete (data : List Nat) :
    ∀ o, ∀ X r, X ∈ scan_shortform_trace data o → X < data.length - 256 →
      parse_shortform_inode data X = some r → r ∈ scan_shortform_from data o := by
  refine scan_shortform_from.induct data
    (fun o => ∀ X r, X ∈ scan_shortform_trace data o → X < data.length - 256 →
      parse_shortform_inode data X = some r → r ∈ scan_shortform_from data o)
    ?_ ?_ ?_ ?_
  · intro x hx hsig r' hparse IH X r hX hlt hpx
    rw [scan_shortform_trace] at hX
    simp only [dif_pos hx, if_pos hsig] at hX
    rw [scan_shortform_from]
    simp only [dif_pos hx, if_pos hsig, hparse]
    rcases List.mem_cons.mp hX with rfl | hX'
    · rw [hparse] at hpx
      have := Option.some.inj hpx
      rw [← this]
      exact List.mem_cons_self r' _
    · exact List.mem_cons_of_mem _ (IH X r hX' hlt hpx)
  · intro x hx hsig hparse IH X r hX hlt hpx
    rw [scan_shortform_trace] at hX
    simp only [dif_pos hx, if_pos hsig] at hX
    rw [scan_shortform_from]
    simp only [dif_pos hx, if_pos hsig, hparse]
    rcases List.mem_cons.mp hX with rfl | hX'
    · rw [hparse] at hpx
      exact absurd hpx (by simp)
    · exact IH X r hX' hlt hpx
  · intro x hx hsig IH X r hX hlt hpx
    rw [scan_shortform_trace] at hX
    simp only [dif_pos hx, if_neg hsig] at hX
    rw [scan_shortform_from]
    simp only [dif_pos hx, if_neg hsig]
    rcases List.mem_cons.mp hX with rfl | hX'
    · exact absurd (parse_shortform_some data X r hpx).2 hsig
    · exact IH X r hX' hlt hpx
  · intro x hnx X r hX hlt hpx
    rw [scan_shortform_trace] at hX
    simp only [dif_neg hnx, List.mem_singleton] at hX
    omega

lemma filter_eq_singleton {α : Type} (p : α → Bool) (l : List α)
    (hpw : l.Pairwise (fun a b => ¬(p a = true ∧ p b = true)))
    (r : α) (hr : r ∈ l) (hpr : p r = true) : l.filter p = [r] := by
  induction l with
  | nil => exact absurd hr (List.not_mem_nil r)
  | cons a t IH =>
    rw [List.pairwise_cons] at hpw
    obtain ⟨ha, hpw'⟩ := hpw
    rcases List.mem_cons.mp hr with rfl | hrt
    · rw [List.filter_cons_of_pos hpr]
      have ht : t.filter p = [] := by
        rw [List.filter_eq_nil_iff]
        intro b hb hpb
        exact ha b hb ⟨hpr, hpb⟩
      rw [ht]
    · have hpa : p a = false := by
        cases hcase : p a
        · rfl
        · exact absurd ⟨hcase, hpr⟩ (ha r hrt)
      rw [List.filter_cons_of_neg (by simp [hpa])]
      exact IH hpw' hrt

/-- C2 counterexample: at cursor 0 of `sfCand` the signature matches but the
window fails validation (entry count 0); the claim predicts a 16-byte
advance, yet the loop moves the cursor straight to 256 and terminates there,
never visiting 16 even though 16 would still be inside the loop bound. -/
theorem shortform_failed_window_advance_256 :
    pySlice sfCand 0 2 = INODE_MAGIC ∧
    parse_shortform_inode sfCand 0 = none ∧
    16 < sfCand.length - 256 ∧
    scan_shortform_trace sfCand 0 = [0, 256] ∧
    (16 : Nat) ∉ scan_shortform_trace sfCand 0 := by
  have htr : scan_shortform_trace sfCand 0 = [0, 256] := by
    simp [scan_shortform_trace, sfCand, INODE_MAGIC, pySlice]
  refine ⟨by decide, by decide, by decide, htr, ?_⟩
  rw [htr]
  decide

/-- C2 amended: when the two bytes at the cursor equal `IN` the cursor
advances by exactly 256 — whether or not the candidate window validates —
and the 16-byte re-alignment stride is used only when the signature does not
match. -/
theorem shortform_stride_policy (data : List Nat) (offset : Nat)
    (h : offset < data.length - 256) :
    (pySlice data offset (offset + 2) = INODE_MAGIC →
      scan_shortform_trace data offset =
        offset :: scan_shortform_trace data (offset + 256)) ∧
    (pySlice data offset (offset + 2) ≠ INODE_MAGIC →
      scan_shortform_trace data offset =
        offset :: scan_shortform_trace data (offset + 16)) := by
  constructor <;> intro hsig <;> rw [scan_shortform_trace]
  · rw [dif_pos h, if_pos hsig]
  · rw [dif_pos h, if_neg hsig]

/-- Witness for C2 (amended): the failed candidate at cursor 0 of `sfCand`
moves the cursor to 256. -/
theorem shortform_stride_policy_witness :
    scan_shortform_trace sfCand 0 = 0 :: scan_shortform_trace sfCand 256 :=
  (shortform_stride_policy sfCand 0 (by decide)).1 (by decide)

/-- C3 counterexample: a buffer that is exactly one valid 256-byte short-form
window (entry count 1) at offset 0 — the last 512-multiple, equal to the
buffer length minus 256 — yields no record at all, because the loop requires
strictly more than 256 bytes past the cursor. -/
theorem shortform_last_window_not_scanned :
    sfExact.length = 256 ∧
    parse_shortform_inode sfExact 0 = some ⟨0, 0, 1⟩ ∧
    scan_shortform_inodes sfExact = [] := by
  refine ⟨by decide, by decide, ?_⟩
  show scan_shortform_from sfExact 0 = []
  rw [scan_shortform_from, dif_neg (by decide : ¬((0 : Nat) < sfExact.length - 256))]

/-- C3 amended: the loop body runs exactly at the cursor positions with
strictly more than 256 remaining bytes; every such position `X` holding a
valid window yields exactly one record, which carries `physicalOffset = X`,
and an invalid window there (in particular entry count 0) yields none. -/
theorem shortform_window_unique_record (data : List Nat) (X : Nat)
    (r : ShortformInodeRecord) (hX : X ∈ scan_shortform_trace data 0)
    (hlt : X < data.length - 256) :
    (parse_shortform_inode data X = some r →
      (scan_shortform_inodes data).filter (fun s => s.offset == X) = [r]) ∧
    (parse_shortform_inode data X = none →
      (scan_shortform_inodes data).filter (fun s => s.offset == X) = []) := by
  constructor
  · intro hp
    have hr : r ∈ scan_shortform_from data 0 :=
      scan_shortform_from_complete data 0 X r hX hlt hp
    have hro : r.offset = X := (parse_shortform_some data X r hp).1
    show (scan_shortform_from data 0).filter (fun s => s.offset == X) = [r]
    refine filter_eq_singleton _ _ ?_ r hr (by simp [hro])
    refine List.Pairwise.imp_of_mem ?_ (scan_shortform_from_pairwise data 0)
    intro a b ha hb hab hcon
    obtain ⟨ha', hb'⟩ := hcon
    simp only [beq_iff_eq] at ha' hb'
    omega
  · intro hp
    show (scan_shortform_from data 0).filter (fun s => s.offset == X) = []
    rw [List.filter_eq_nil_iff]
    intro s hs hps
    have hmem := scan_shortform_from_mem data 0 s hs
    have hso : s.offset = X := by simpa using hps
    rw [hso] at hmem
    have hsome := hmem.2.2
    rw [hp] at hsome
    exact absurd hsome (by simp)

/-- Witness for C3 (amended): `sfOk` is 257 bytes, its window at cursor 0 is
inside the loop bound and valid, and the scan reports it exactly once. -/
theorem shortform_window_unique_record_witness :
    (scan_shortform_inodes sfOk).filter (fun s => s.offset == 0) = [⟨0, 0, 1⟩] := by
  have htr : scan_shortform_trace sfOk 0 = [0, 256] := by
    simp [scan_shortform_trace, sfOk, INODE_MAGIC, pySlice]
  exact (shortform_window_unique_record sfOk 0 ⟨0, 0, 1⟩ (by rw [htr]; decide)
    (by decide)).1 (by decide)

/-- Helper: the scan is the instrumented scan with the origin offsets erased. -/
lemma scanFrom_eq_map_snd (img : List Nat) :
    ∀ o, scanFrom img o = (scanFromOff img o).map Prod.snd := by
  refine scanFromOff.induct img
    (fun o => scanFrom img o = (scanFromOff img o).map Prod.snd) ?_ ?_ ?_ ?_
  · intro x hx hb4
    rw [scanFrom, scanFromOff]
    simp only [dif_pos hx, if_pos hb4, List.map_nil]
  · intro x hx hb4 hsig IH
    rw [scanFrom, scanFromOff]
    simp only [dif_pos hx, if_neg hb4, if_pos hsig, List.map_cons, IH]
  · intro x hx hb4 hsig IH
    rw [scanFrom, scanFromOff]
    simp only [dif_pos hx, if_neg hb4, if_neg hsig, IH]
  · intro x hnx
    rw [scanFrom, scanFromOff]
    simp only [dif_neg hnx, List.map_nil]

/-- Helper: every instrumented scan entry was emitted at an in-bounds origin
offset congruent to the starting offset mod 512, with a matching signature,
and is exactly the record built from the window read there. -/
lemma scanFromOff_mem (img : List Nat) :
    ∀ o, ∀ p ∈ scanFromOff img o,
      o ≤ p.1 ∧ p.1 + 4 ≤ img.length ∧ p.1 % 512 = o % 512 ∧
      ((img.drop p.1).take 512).take 2 = INODE_MAGIC ∧
      p.2 = mkInodeRecord ((img.drop p.1).take 512) p.1 := by
  refine scanFromOff.induct img
    (fun o => ∀ p ∈ scanFromOff img o,
      o ≤ p.1 ∧ p.1 + 4 ≤ img.length ∧ p.1 % 512 = o % 512 ∧
      ((img.drop p.1).take 512).take 2 = INODE_MAGIC ∧
      p.2 = mkInodeRecord ((img.drop p.1).take 512) p.1) ?_ ?_ ?_ ?_
  · intro x hx hb4 p hp
    rw [scanFromOff] at hp
    simp only [dif_pos hx, if_pos hb4] at hp
    exact absurd hp (List.not_mem_nil p)
  · intro x hx hb4 hsig IH p hp
    rw [scanFromOff] at hp
    simp only [dif_pos hx, if_neg hb4, if_pos hsig] at hp
    rcases List.mem_cons.mp hp with rfl | hp'
    · have hlen : x + 4 ≤ img.length := by
        simp only [INODE_SIZE, List.length_take, List.length_drop] at hb4
        omega
      refine ⟨le_refl x, hlen, rfl, ?_, ?_⟩
      · simpa only [INODE_SIZE] using hsig
      · simp only [INODE_SIZE]
    · have h := IH p hp'
      have hmod := h.2.2.1
      simp only [INODE_SIZE] at h hmod
      exact ⟨by omega, h.2.1, by omega, h.2.2.2.1, h.2.2.2.2⟩
  · intro x hx hb4 hsig IH p hp
    rw [scanFromOff] at hp
    simp only [dif_pos hx, if_neg hb4, if_neg hsig] at hp
    have h := IH p hp
    have hmod := h.2.2.1
    simp only [INODE_SIZE] at h hmod
    exact ⟨by omega, h.2.1, by omega, h.2.2.2.1, h.2.2.2.2⟩
  · intro x hnx p hp
    rw [scanFromOff] at hp
    simp only [dif_neg hnx] at hp
    exact absurd hp (List.not_mem_nil p)

/-- Helper: the instrumented scan's origin offsets are strictly increasing. -/
lemma scanFromOff_pairwise (img : List Nat) :
    ∀ o, (scanFromOff img o).Pairwise (fun p q => p.1 < q.1) := by
  refine scanFromOff.induct img
    (fun o => (scanFromOff img o).Pairwise (fun p q => p.1 < q.1)) ?_ ?_ ?_ ?_
  · intro x hx hb4
    rw [scanFromOff, dif_pos hx, if_pos hb4]
    exact List.Pairwise.nil
  · intro x hx hb4 hsig IH
    rw [scanFromOff]
    simp only [dif_pos hx, if_neg hb4, if_pos hsig]
    rw [List.pairwise_cons]
    refine ⟨?_, IH⟩
    intro q hq
    have h1 := (scanFromOff_mem img (x + INODE_SIZE) q hq).1
    show x < q.1
    simp only [INODE_SIZE] at h1
    omega
  · intro x hx hb4 hsig IH
    rw [scanFromOff]
    simp only [dif_pos hx, if_neg hb4, if_neg hsig]
    exact IH
  · intro x hnx
    rw [scanFromOff, dif_neg hnx]
    exact List.Pairwise.nil

/-- C5: every record produced by the inode scan originates at an offset that
is a multiple of 512 (recorded by the instrumented scan, whose erasure is the
scan itself) and its inode number is that offset divided by 512; the produced
sequence is strictly ascending in origin offset and hence in inode number. -/
theorem scan_offsets_aligned_ascending (img : List Nat) :
    scan_and_classify_inodes img = (scanFromOff img 0).map Prod.snd ∧
    (∀ p ∈ scanFromOff img 0, p.1 % 512 = 0 ∧ p.2.inode = p.1 / 512) ∧
    (scanFromOff img 0).Pairwise (fun p q => p.1 < q.1 ∧ p.2.inode < q.2.inode) := by
  refine ⟨scanFrom_eq_map_snd img 0, ?_, ?_⟩
  · intro p hp
    have h := scanFromOff_mem img 0 p hp
    have hmod : p.1 % 512 = 0 := by simpa using h.2.2.1
    refine ⟨hmod, ?_⟩
    rw [h.2.2.2.2]
    simp [mkInodeRecord, INODE_SIZE]
  · refine List.Pairwise.imp_of_mem ?_ (scanFromOff_pairwise img 0)
    intro p q hp hq hlt
    have hp' := scanFromOff_mem img 0 p hp
    have hq' := scanFromOff_mem img 0 q hq
    refine ⟨hlt, ?_⟩
    rw [hp'.2.2.2.2, hq'.2.2.2.2]
    simp only [mkInodeRecord, INODE_SIZE]
    have hpm : p.1 % 512 = 0 := by simpa using hp'.2.2.1
    have hqm : q.1 % 512 = 0 := by simpa using hq'.2.2.1
    omega

/-- Helper: a record found by the scan one stride further is also found when
starting one stride earlier (the earlier window does not break the loop). -/
lemma scanFrom_mem_prev (img : List Nat) (o : Nat) (r : InodeRecord)
    (ho : o < img.length) (hb4 : ¬ ((img.drop o).take INODE_SIZE).length < 4)
    (hr : r ∈ scanFrom img (o + INODE_SIZE)) : r ∈ scanFrom img o := by
  rw [scanFrom]
  rw [dif_pos ho, if_neg hb4]
  by_cases hsig : ((img.drop o).take INODE_SIZE).take 2 = INODE_MAGIC
  · rw [if_pos hsig]
    exact List.mem_cons_of_mem _ hr
  · rw [if_neg hsig]
    exact hr

/-- Helper: a record found by the scan started a whole number of strides
further down is found from the earlier start, as long as the furthest start
still has at least 4 bytes available. -/
lemma scanFrom_mem_of_le (img : List Nat) (r : InodeRecord) :
    ∀ k o, o + 512 * k + 4 ≤ img.length →
      r ∈ scanFrom img (o + 512 * k) → r ∈ scanFrom img o := by
  intro k
  induction k with
  | zero =>
    intro o _ hr
    simpa using hr
  | succ n IH =>
    intro o hlen hr
    have hidx : o + 512 * (n + 1) = (o + 512) + 512 * n := by ring
    rw [hidx] at hlen hr
    have hnext : r ∈ scanFrom img (o + 512) := IH (o + 512) hlen hr
    refine scanFrom_mem_prev img o r (by omega) ?_ ?_
    · simp only [INODE_SIZE, List.length_take, List.length_drop]
      omega
    · simpa only [INODE_SIZE] using hnext

/-- Helper: when the window at `o` is the last one (the next stride leaves the
image) and it has at least 4 bytes and a matching signature, the scan from `o`
emits exactly the record for that window. -/
lemma scanFrom_last (img : List Nat) (o : Nat) (ho : o < img.length)
    (hrem : img.length ≤ o + 512) (hb4 : 4 ≤ img.length - o)
    (hsig : ((img.drop o).take 512).take 2 = INODE_MAGIC) :
    scanFrom img o = [mkInodeRecord ((img.drop o).take 512) o] := by
  rw [scanFrom]
  have hlen4 : ¬ ((img.drop o).take INODE_SIZE).length < 4 := by
    simp only [INODE_SIZE, List.length_take, List.length_drop]
    omega
  rw [dif_pos ho, if_neg hlen4, if_pos (by simpa only [INODE_SIZE] using hsig)]
  simp only [INODE_SIZE]
  have htail : scanFrom img (o + 512) = [] := by
    rw [scanFrom, dif_neg (by omega : ¬ (o + 512 < img.length))]
  rw [htail]

/-- C10: for an image whose length is not a multiple of 512, the partial
window at the last 512-multiple offset still produces a record when it is at
least 4 bytes long and starts with `IN` — that record's inode number is
`length / 512` and all three timestamps are 0 whenever the partial window is
too short (< 52 bytes) for some timestamp field; only a trailing fragment of
fewer than 4 bytes yields no record. -/
theorem scan_partial_final_window (img : List Nat)
    (hmod : img.length % 512 ≠ 0) :
    (4 ≤ (lastWindow img).length →
      (lastWindow img).take 2 = INODE_MAGIC →
      (mkInodeRecord (lastWindow img) (lastWindowOffset img) ∈
          scan_and_classify_inodes img ∧
       (mkInodeRecord (lastWindow img) (lastWindowOffset img)).inode =
          img.length / 512 ∧
       ((lastWindow img).length < 52 →
         (mkInodeRecord (lastWindow img) (lastWindowOffset img)).atime = 0 ∧
         (mkInodeRecord (lastWindow img) (lastWindowOffset img)).mtime = 0 ∧
         (mkInodeRecord (lastWindow img) (lastWindowOffset img)).ctime = 0))) ∧
    ((lastWindow img).length < 4 →
      ∀ r ∈ scan_and_classify_inodes img, r.inode ≠ img.length / 512) := by
  have hB : lastWindowOffset img = 512 * (img.length / 512) := rfl
  have hBlt : lastWindowOffset img < img.length := by
    rw [hB]; omega
  have hBrem : img.length ≤ lastWindowOffset img + 512 := by
    rw [hB]; omega
  have hwlen : (lastWindow img).length = img.length - lastWindowOffset img := by
    rw [lastWindow]
    simp only [List.length_take, List.length_drop]
    rw [hB]
    omega
  constructor
  · intro h4 hsig
    have hb4 : 4 ≤ img.length - lastWindowOffset img := by omega
    have hlast := scanFrom_last img (lastWindowOffset img) hBlt hBrem hb4
      (by rw [lastWindow] at hsig; exact hsig)
    have hmem0 : mkInodeRecord (lastWindow img) (lastWindowOffset img) ∈
        scanFrom img (lastWindowOffset img) := by
      rw [hlast, lastWindow]
      exact List.mem_singleton.mpr rfl
    have hmem : mkInodeRecord (lastWindow img) (lastWindowOffset img) ∈
        scanFrom img 0 := by
      refine scanFrom_mem_of_le img _ (img.length / 512) 0 ?_ ?_
      · rw [hB] at hb4
        omega
      · have : (0 : Nat) + 512 * (img.length / 512) = lastWindowOffset img := by
          rw [hB]; omega
        rw [this]
        exact hmem0
    refine ⟨hmem, ?_, ?_⟩
    · simp only [mkInodeRecord, INODE_SIZE, hB]
      omega
    · intro h52
      have hz := parse_times_zero_of_short (lastWindow img) (by omega)
      simp [mkInodeRecord, hz]
  · intro h4 r hr hinode
    rw [scan_and_classify_inodes, scanFrom_eq_map_snd img 0] at hr
    obtain ⟨p, hp, hpr⟩ := List.mem_map.mp hr
    have h := scanFromOff_mem img 0 p hp
    have hmodp : p.1 % 512 = 0 := by simpa using h.2.2.1
    have hrin : r.inode = p.1 / 512 := by
      rw [← hpr, h.2.2.2.2]
      simp [mkInodeRecord, INODE_SIZE]
    have hlenp := h.2.1
    rw [hinode] at hrin
    have hpB : p.1 = lastWindowOffset img := by
      rw [hB]
      omega
    rw [hpB] at hlenp
    omega

/-- Witness for C10: a 516-byte image (512-byte non-matching window, then the
4-byte fragment `IN 85 00`) yields the partial-window record with inode 1. -/
theorem scan_partial_final_window_witness :
    mkInodeRecord (lastWindow imgC10) (lastWindowOffset imgC10) ∈
        scan_and_classify_inodes imgC10 ∧
    (mkInodeRecord (lastWindow imgC10) (lastWindowOffset imgC10)).inode =
        imgC10.length / 512 :=
  have h := (scan_partial_final_window imgC10 (by decide)).1 (by decide) (by decide)
  ⟨h.1, h.2.1⟩

/-- C9 counterexample: `xfs_ncheck` output whose second line makes `int`
raise. The collaborator surfaces the warning but returns the mapping built so
far — `{1: '/a'}` — which is not empty, contrary to the claim. -/
theorem ncheck_parse_error_keeps_partial_map :
    parse_xfs_ncheck (Except.ok badNcheckOutput) = ([(1, ['/', 'a'])], true) ∧
    (parse_xfs_ncheck (Except.ok badNcheckOutput)).1 ≠ [] := by
  constructor
  · decide
  · decide

/-- C9 amended: an invocation failure (missing utility, non-zero exit, stdout
decode error) yields an empty mapping with the warning; a line on which `int`
raises stops the loop, surfaces the warning, and returns exactly the mapping
accumulated from the lines before it — possibly non-empty. In both cases the
collaborator returns normally (never aborting the scan). -/
theorem ncheck_failure_behaviour :
    (∀ e, parse_xfs_ncheck (Except.error e) = ([], true)) ∧
    (∀ pre bad rest acc m, parse_ncheck_lines pre acc = (m, false) →
      lineIntFails bad →
      parse_ncheck_lines (pre ++ bad :: rest) acc = (m, true)) := by
  constructor
  · intro e
    rfl
  · intro pre
    induction pre with
    | nil =>
      intro bad rest acc m hpre hbad
      obtain ⟨p0, p1, hsplit, hint⟩ := hbad
      have hm : acc = m := by
        simpa [parse_ncheck_lines] using hpre
      simp only [List.nil_append, parse_ncheck_lines, hsplit, hint, hm]
    | cons line pre' IH =>
      intro bad rest acc m hpre hbad
      rcases hsp : pySplitNone1 (pyStrip line) with _ | ⟨p0, _ | ⟨p1, _ | t⟩⟩
      · simp only [parse_ncheck_lines, hsp] at hpre
        simp only [List.cons_append, parse_ncheck_lines, hsp]
        exact IH bad rest acc m hpre hbad
      · simp only [parse_ncheck_lines, hsp] at hpre
        simp only [List.cons_append, parse_ncheck_lines, hsp]
        exact IH bad rest acc m hpre hbad
      · cases hint : pyInt p0 with
        | some n =>
          simp only [parse_ncheck_lines, hsp, hint] at hpre
          simp only [List.cons_append, parse_ncheck_lines, hsp, hint]
          exact IH bad rest _ m hpre hbad
        | none =>
          rw [show parse_ncheck_lines (line :: pre') acc =
              (acc, true) from by simp [parse_ncheck_lines, hsp, hint]] at hpre
          exact absurd (congrArg Prod.snd hpre) (by simp)
      · simp only [parse_ncheck_lines, hsp] at hpre
        simp only [List.cons_append, parse_ncheck_lines, hsp]
        exact IH bad rest acc m hpre hbad

/-- Witness for C9 (amended): one good line before the raising line is kept. -/
theorem ncheck_failure_behaviour_witness :
    parse_ncheck_lines
        ([['1', ' ', '/', 'a']] ++ ['x', 'y', 'z', ' ', '/', 'b'] :: []) [] =
      ([(1, ['/', 'a'])], true) :=
  ncheck_failure_behaviour.2 [['1', ' ', '/', 'a']] ['x', 'y', 'z', ' ', '/', 'b']
    [] [] [(1, ['/', 'a'])] (by decide)
    ⟨['x', 'y', 'z'], ['/', 'b'], by decide, by decide⟩

end XFS
